import Mathlib

set_option linter.unusedVariables false

/-!
Verification development for the agents-in-the-loop repository.

Part 1 embeds the query-orchestration and session-state core (Transcript
model, Session Store, Execution Adapter, Query Orchestrator).  The module
implementing this core is not present in the source tree (only its README
and architecture documentation are), so these definitions are modelled
from the specification text, as their doc comments record.

Part 2 embeds the todo-list front-end helpers that are present in the
source tree: the derived values of the useTodos hook and the
validateTitle functions of TodoItem and TodoForm.
-/

deriving instance DecidableEq for Except

/-- True when every character of the string is whitespace; an empty or
whitespace-only string is blank. -/
def isBlank (s : String) : Bool :=
  s.data.all Char.isWhitespace

/-- Removes leading and trailing whitespace characters from a character
list, modelling the trim operation of the host language. -/
def trimChars (l : List Char) : List Char :=
  ((l.dropWhile Char.isWhitespace).reverse.dropWhile Char.isWhitespace).reverse

/-- Trim modelled over the character data of a string. -/
def strTrim (s : String) : String :=
  String.mk (trimChars s.data)

/-- Modelled from the spec: the discriminated variants of a Turn over
assistant-text, tool-invocation, tool-result and system-notice (spec section 3);
the implementing module (the Flask app.py core) is missing from the source tree. -/
inductive TurnKind where
  | assistantText
  | toolInvocation
  | toolResult
  | systemNotice
deriving DecidableEq

/-- Modelled from the spec: one unit of agent output, carrying free-form
content and a sequence number within its session (spec section 3). -/
structure Turn where
  kind : TurnKind
  content : String
  sequence : Nat
deriving DecidableEq

/-- Modelled from the spec: Transcript lifecycle status (spec section 3). -/
inductive Status where
  | pending
  | running
  | completed
  | failed
deriving DecidableEq

/-- Modelled from the spec: the summary of a completed run, carrying final
agent text, total turns consumed and reported cost (spec section 3). -/
structure Summary where
  text : String
  turnsUsed : Nat
  cost : Nat
deriving DecidableEq

/-- Modelled from the spec: the error taxonomy of spec section 7. -/
inductive ErrorKind where
  | invalidInput
  | serviceUnavailable
  | upstreamError
  | timeout
  | cancelled
  | notFound
  | internalError
deriving DecidableEq

/-- Modelled from the spec: the terminal failure record of a Transcript,
one taxonomy value plus a human-readable message (spec section 3). -/
structure Failure where
  kind : ErrorKind
  message : String
deriving DecidableEq

/-- Modelled from the spec: the Transcript of one submitted query
(spec section 3): id, immutable prompt and turn budget, status, ordered
turns, and the terminal summary or failure. -/
structure Transcript where
  id : Nat
  prompt : String
  turn_budget : Nat
  status : Status
  turns : List Turn
  summary : Option Summary
  failure : Option Failure
deriving DecidableEq

/-- Modelled from the spec: a Transcript in status completed or failed is
terminal (spec section 3). -/
def Transcript.isTerminal (t : Transcript) : Bool :=
  match t.status with
  | Status.completed => true
  | Status.failed => true
  | _ => false

/-- Modelled from the spec: the two failure modes of a Session Store
mutation, unknown id and mutation of a terminal Transcript (spec section 4.2). -/
inductive StoreError where
  | notFound
  | invalidTransition
deriving DecidableEq

/-- Modelled from the spec: the Session Store, a registry mapping session
identifiers to Transcripts (spec section 4.2); ids are allocated from a
counter so they are never reused. -/
structure Store where
  nextId : Nat
  entries : List (Nat × Transcript)
deriving DecidableEq

/-- Modelled from the spec: the Session Store of a fresh process holds no
Transcripts. -/
def Store.empty : Store := { nextId := 0, entries := [] }

/-- Lookup of the first entry with the given id in the registry list. -/
def findEntry : List (Nat × Transcript) → Nat → Option Transcript
  | [], _ => none
  | (k, t) :: rest, id => if k = id then some t else findEntry rest id

/-- Replace the first entry with the given id in the registry list. -/
def updateEntry : List (Nat × Transcript) → Nat → Transcript → List (Nat × Transcript)
  | [], _, _ => []
  | (k, t) :: rest, id, t2 =>
    if k = id then (k, t2) :: rest else (k, t) :: updateEntry rest id t2

/-- Modelled from the spec: read-only snapshot lookup inside the Store. -/
def Store.find (s : Store) (id : Nat) : Option Transcript :=
  findEntry s.entries id

/-- Modelled from the spec: get(id) returns the Transcript or NotFound
(spec section 4.2). -/
def Store.get (s : Store) (id : Nat) : Except StoreError Transcript :=
  match Store.find s id with
  | some t => Except.ok t
  | none => Except.error StoreError.notFound

/-- Modelled from the spec: create allocates a new Transcript in pending
with empty turns and no summary or failure, registers it under a fresh id,
and returns the id (spec section 4.2). -/
def Store.create (s : Store) (prompt : String) (turn_budget : Nat) : Nat × Store :=
  (s.nextId,
    { nextId := s.nextId + 1,
      entries := (s.nextId,
        { id := s.nextId, prompt := prompt, turn_budget := turn_budget,
          status := Status.pending, turns := [], summary := none,
          failure := none }) :: s.entries })

/-- Mutation skeleton shared by the four Session Store mutators: fails with
NotFound on an unknown id, otherwise applies the per-operation transition
function to the stored Transcript. -/
def Store.modify (s : Store) (id : Nat)
    (f : Transcript → Except StoreError Transcript) : Except StoreError Store :=
  match Store.find s id with
  | none => Except.error StoreError.notFound
  | some t =>
    match f t with
    | Except.error e => Except.error e
    | Except.ok t2 => Except.ok { s with entries := updateEntry s.entries id t2 }

/-- Modelled from the spec: transition_to_running moves a Transcript into
running; it fails with InvalidTransition against a terminal Transcript
(spec section 4.2). -/
def Store.transition_to_running (s : Store) (id : Nat) : Except StoreError Store :=
  Store.modify s id (fun t =>
    if t.isTerminal then Except.error StoreError.invalidTransition
    else Except.ok { t with status := Status.running })

/-- Modelled from the spec: append_turn appends one Turn; it fails with
InvalidTransition against a terminal Transcript (spec section 4.2), and,
per the section 3 invariant that turns.length never exceeds turn_budget,
it also refuses an append that would push turns past the budget. -/
def Store.append_turn (s : Store) (id : Nat) (turn : Turn) : Except StoreError Store :=
  Store.modify s id (fun t =>
    if t.isTerminal then Except.error StoreError.invalidTransition
    else if t.turn_budget ≤ t.turns.length then Except.error StoreError.invalidTransition
    else Except.ok { t with turns := t.turns ++ [turn] })

/-- Modelled from the spec: finalize_completed moves a non-terminal
Transcript to completed with the given summary; it fails with
InvalidTransition against a terminal Transcript (spec section 4.2). -/
def Store.finalize_completed (s : Store) (id : Nat) (summary : Summary) :
    Except StoreError Store :=
  Store.modify s id (fun t =>
    if t.isTerminal then Except.error StoreError.invalidTransition
    else Except.ok { t with status := Status.completed, summary := some summary })

/-- Modelled from the spec: finalize_failed moves a non-terminal Transcript
to failed with the given failure record; it fails with InvalidTransition
against a terminal Transcript (spec section 4.2). -/
def Store.finalize_failed (s : Store) (id : Nat) (failure : Failure) :
    Except StoreError Store :=
  Store.modify s id (fun t =>
    if t.isTerminal then Except.error StoreError.invalidTransition
    else Except.ok { t with status := Status.failed, failure := some failure })

/-- Modelled from the spec: the Execution Adapter failure modes
(spec section 4.3), plus the unexpected-exception case of section 4.4. -/
inductive AdapterError where
  | agentUnavailable
  | agentProtocolError
  | budgetExceededAbnormally
  | timeout
  | cancelled
  | unexpected (message : String)
deriving DecidableEq

/-- Modelled from the spec: the terminal signal of the external agent,
either a final summary text with cost, or a failure of its own. -/
inductive AgentResult where
  | completed (text : String) (cost : Nat)
  | failed (e : AdapterError)
deriving DecidableEq

/-- Modelled from the spec: the observable behaviour of one external agent
invocation, the ordered turns it would produce followed by its terminal
signal; the Adapter translates this streaming protocol into Turn values. -/
structure AgentBehavior where
  turns : List (TurnKind × String)
  result : AgentResult
deriving DecidableEq

/-- Assigns consecutive sequence numbers, starting at start, to raw agent
outputs, producing Turn values in production order. -/
def numberTurns (start : Nat) : List (TurnKind × String) → List Turn
  | [] => []
  | (k, c) :: rest => { kind := k, content := c, sequence := start } :: numberTurns (start + 1) rest

/-- Modelled from the spec: Adapter.run drives one agent invocation under a
hard turn budget (spec section 4.3): if the protocol would yield more turns
than the budget, the interaction is cut off once the budget is reached and
reported as a normal completed outcome; otherwise the agent finishes
naturally and its own terminal signal stands.  Returns the delivered turns
(retained even on failure) together with the terminal result. -/
def Adapter.run (turn_budget : Nat) (agent : AgentBehavior) :
    List Turn × Except AdapterError Summary :=
  if turn_budget < agent.turns.length then
    (numberTurns 0 (agent.turns.take turn_budget),
      Except.ok { text := "", turnsUsed := turn_budget, cost := 0 })
  else
    (numberTurns 0 agent.turns,
      match agent.result with
      | AgentResult.completed text cost =>
        Except.ok { text := text, turnsUsed := agent.turns.length, cost := cost }
      | AgentResult.failed e => Except.error e)

/-- Modelled from the spec: the configured maximum turn budget
(spec section 4.1), an implementation-defined upper cap. -/
structure Config where
  maxTurnBudget : Int

/-- Modelled from the spec: validate fails with InvalidInput when the
prompt is empty or whitespace-only, or when the turn budget is
non-positive or exceeds the configured maximum (spec section 4.1). -/
def validate (cfg : Config) (prompt : String) (turn_budget : Int) :
    Except ErrorKind Unit :=
  if isBlank prompt then Except.error ErrorKind.invalidInput
  else if turn_budget ≤ 0 then Except.error ErrorKind.invalidInput
  else if cfg.maxTurnBudget < turn_budget then Except.error ErrorKind.invalidInput
  else Except.ok ()

/-- Modelled from the spec: the Orchestrator error mapping of
spec section 4.4, any unexpected failure mapping to InternalError. -/
def mapAdapterError : AdapterError → ErrorKind
  | AdapterError.agentUnavailable => ErrorKind.serviceUnavailable
  | AdapterError.agentProtocolError => ErrorKind.upstreamError
  | AdapterError.timeout => ErrorKind.timeout
  | AdapterError.cancelled => ErrorKind.cancelled
  | _ => ErrorKind.internalError

/-- Human-readable message recorded with a mapped adapter failure. -/
def adapterMessage : AdapterError → String
  | AdapterError.agentUnavailable => "agent unavailable"
  | AdapterError.agentProtocolError => "agent protocol error"
  | AdapterError.budgetExceededAbnormally => "budget exceeded abnormally"
  | AdapterError.timeout => "timeout"
  | AdapterError.cancelled => "cancelled"
  | AdapterError.unexpected m => m

/-- Appends a list of delivered turns one by one through append_turn, in
delivery order, mirroring the per-turn on_turn callback of the Adapter. -/
def appendTurns (s : Store) (id : Nat) : List Turn → Except StoreError Store
  | [] => Except.ok s
  | turn :: rest =>
    match Store.append_turn s id turn with
    | Except.error e => Except.error e
    | Except.ok s1 => appendTurns s1 id rest

/-- Modelled from the spec: Query Orchestrator submit (spec section 4.4):
validates the request (failing fast with no session created), creates the
session, transitions it to running, drives the Execution Adapter appending
each delivered turn, then finalizes the session as completed or failed and
returns the final Transcript or the mapped error; any unexpected internal
failure surfaces as InternalError. -/
def submit (cfg : Config) (s : Store) (prompt : String) (turn_budget : Int)
    (agent : AgentBehavior) : Store × Except ErrorKind (Nat × Transcript) :=
  match validate cfg prompt turn_budget with
  | Except.error e => (s, Except.error e)
  | Except.ok _ =>
    match Store.create s prompt turn_budget.toNat with
    | (id, s1) =>
      match Store.transition_to_running s1 id with
      | Except.error _ => (s1, Except.error ErrorKind.internalError)
      | Except.ok s2 =>
        match Adapter.run turn_budget.toNat agent with
        | (turns, result) =>
          match appendTurns s2 id turns with
          | Except.error _ => (s2, Except.error ErrorKind.internalError)
          | Except.ok s3 =>
            match result with
            | Except.ok summary =>
              match Store.finalize_completed s3 id summary with
              | Except.error _ => (s3, Except.error ErrorKind.internalError)
              | Except.ok s4 =>
                match Store.find s4 id with
                | some t => (s4, Except.ok (id, t))
                | none => (s4, Except.error ErrorKind.internalError)
            | Except.error e =>
              match Store.finalize_failed s3 id
                  { kind := mapAdapterError e, message := adapterMessage e } with
              | Except.error _ => (s3, Except.error (mapAdapterError e))
              | Except.ok s4 => (s4, Except.error (mapAdapterError e))

/-- The todo record of the front-end (src/unnamed/part_005, types/todo.ts). -/
structure Todo where
  id : Int
  title : String
  completed : Bool
  created_at : String
  updated_at : String
deriving DecidableEq

/-- The filter values of the front-end (src/unnamed/part_005, types/todo.ts). -/
inductive FilterType where
  | all
  | active
  | completed
deriving DecidableEq

/-- The filter predicate used by the useTodos hook (src/unnamed/part_004):
the active case keeps not-completed todos, the completed case keeps
completed todos, the default case keeps every todo. -/
def todoMatchesFilter (filter : FilterType) (todo : Todo) : Bool :=
  match filter with
  | FilterType.active => !todo.completed
  | FilterType.completed => todo.completed
  | FilterType.all => true

/-- The todos value returned by the useTodos hook (src/unnamed/part_004):
the held todos list filtered by the currently selected filter. -/
def filteredTodos (todos : List Todo) (filter : FilterType) : List Todo :=
  todos.filter (todoMatchesFilter filter)

/-- The activeTodosCount value of the useTodos hook (src/unnamed/part_004):
the number of not-completed todos in the full unfiltered held list. -/
def activeTodosCount (todos : List Todo) : Nat :=
  (todos.filter (fun todo => !todo.completed)).length

/-- Claim-side characterization of the visible todos, following the claim
wording: active keeps todos with completed = false, completed keeps todos
with completed = true, all keeps every todo. -/
def specKeepsTodo (filter : FilterType) (todo : Todo) : Bool :=
  match filter with
  | FilterType.active => todo.completed == false
  | FilterType.completed => todo.completed == true
  | FilterType.all => true

/-- Claim-side visible list: exactly the todos matching the filter, in
original order. -/
def specVisibleTodos (todos : List Todo) (filter : FilterType) : List Todo :=
  todos.filter (specKeepsTodo filter)

/-- Claim-side active count: the number of todos with completed = false in
the full unfiltered list. -/
def specActiveCount (todos : List Todo) : Nat :=
  List.countP (fun todo => todo.completed == false) todos

namespace TodoItem

/-- validateTitle of the TodoItem component (src/unnamed/part_002): rejects
a title whose trimmed length is zero with an emptiness message, then a
title whose raw length exceeds 200 with a length message; otherwise it
clears the validation error.  The boolean result is paired with the
validation error message the call leaves set. -/
def validateTitle (value : String) : Bool × Option String :=
  if (strTrim value).length = 0 then
    (false, some "Todo title cannot be empty")
  else if value.length > 200 then
    (false, some "Todo title must be 200 characters or less")
  else (true, none)

end TodoItem

namespace TodoForm

/-- validateTitle of the TodoForm component (src/unnamed/part_002): the
same validation as in TodoItem, applied to the new-todo input. -/
def validateTitle (value : String) : Bool × Option String :=
  if (strTrim value).length = 0 then
    (false, some "Todo title cannot be empty")
  else if value.length > 200 then
    (false, some "Todo title must be 200 characters or less")
  else (true, none)

end TodoForm

/-- Rank of a status along the forward direction pending to running to the
two terminal statuses. -/
def statusRank : Status → Nat
  | Status.pending => 0
  | Status.running => 1
  | Status.completed => 2
  | Status.failed => 2

/-- Property that a Transcript satisfies the lifecycle invariant of the
data model: pending means empty with no outcome, terminal means exactly
one of summary and failure populated. -/
def entryWF (t : Transcript) : Prop :=
  (t.status = Status.pending → t.turns = [] ∧ t.summary = none ∧ t.failure = none) ∧
  ((t.status = Status.completed ∨ t.status = Status.failed) →
    ((t.summary ≠ none ∧ t.failure = none) ∨ (t.summary = none ∧ t.failure ≠ none)))

/-- Every Transcript registered in the Store satisfies the lifecycle
invariant. -/
def StoreWF (s : Store) : Prop :=
  ∀ id t, Store.find s id = some t → entryWF t

/-- The Stores reachable by the system: the empty Store of a fresh process,
followed by any sequence of Orchestrator submissions. -/
inductive SubmitReachable : Store → Prop where
  | empty : SubmitReachable Store.empty
  | step (cfg : Config) (s : Store) (prompt : String) (b : Int) (agent : AgentBehavior) :
      SubmitReachable s → SubmitReachable (submit cfg s prompt b agent).1

/-- Property that the sequence numbers of the turns of a Transcript are
strictly increasing in list order, stated on adjacent positions. -/
def seqStrictMono (t : Transcript) : Prop :=
  ∀ (i : Nat) (h : i + 1 < t.turns.length),
    (t.turns.get ⟨i, Nat.lt_of_succ_lt h⟩).sequence < (t.turns.get ⟨i + 1, h⟩).sequence

def demoConfig : Config := { maxTurnBudget := 10 }

def demoAgent : AgentBehavior :=
  { turns := [(TurnKind.assistantText, "hello")], result := AgentResult.completed "done" 3 }

def demoAgentLong : AgentBehavior :=
  { turns := [(TurnKind.assistantText, "a"), (TurnKind.toolInvocation, "b"),
              (TurnKind.toolResult, "c")],
    result := AgentResult.completed "z" 1 }

def demoAgentDown : AgentBehavior :=
  { turns := [], result := AgentResult.failed AdapterError.agentUnavailable }

def demoTurn : Turn := { kind := TurnKind.assistantText, content := "hello", sequence := 0 }

def demoSummary : Summary := { text := "done", turnsUsed := 1, cost := 3 }

def demoFailure : Failure := { kind := ErrorKind.timeout, message := "timeout" }

def demoTranscript : Transcript :=
  { id := 0, prompt := "hi", turn_budget := 1, status := Status.completed,
    turns := [{ kind := TurnKind.assistantText, content := "hello", sequence := 0 }],
    summary := some demoSummary, failure := none }

def demoLongTranscript : Transcript :=
  { id := 0, prompt := "hi", turn_budget := 2, status := Status.completed,
    turns := [{ kind := TurnKind.assistantText, content := "a", sequence := 0 },
              { kind := TurnKind.toolInvocation, content := "b", sequence := 1 }],
    summary := some { text := "", turnsUsed := 2, cost := 0 }, failure := none }

def demoRunning : Transcript :=
  { id := 0, prompt := "hi", turn_budget := 2, status := Status.running,
    turns := [], summary := none, failure := none }

def demoRunning1 : Transcript :=
  { id := 0, prompt := "hi", turn_budget := 2, status := Status.running,
    turns := [demoTurn], summary := none, failure := none }

def demoStoreRunning : Store := { nextId := 1, entries := [(0, demoRunning)] }

def demoStoreRunning1 : Store := { nextId := 1, entries := [(0, demoRunning1)] }

def demoCompleted : Transcript :=
  { id := 0, prompt := "hi", turn_budget := 1, status := Status.completed,
    turns := [], summary := some demoSummary, failure := none }

def demoStoreTerminal : Store := { nextId := 1, entries := [(0, demoCompleted)] }

def overlongTitle : String := String.mk ('a' :: List.replicate 200 ' ')

theorem findEntry_updateEntry_self (l : List (Nat × Transcript)) (id : Nat)
    (t t2 : Transcript) (h : findEntry l id = some t) :
    findEntry (updateEntry l id t2) id = some t2 := by
  induction l with
  | nil => simp [findEntry] at h
  | cons p rest ih =>
    obtain ⟨k, u⟩ := p
    by_cases hk : k = id
    · simp [findEntry, updateEntry, hk]
    · simp only [findEntry, updateEntry, if_neg hk] at h ⊢
      exact ih h

theorem findEntry_updateEntry_ne (l : List (Nat × Transcript)) (id id2 : Nat)
    (t2 : Transcript) (h : id2 ≠ id) :
    findEntry (updateEntry l id t2) id2 = findEntry l id2 := by
  induction l with
  | nil => simp [updateEntry]
  | cons p rest ih =>
    obtain ⟨k, u⟩ := p
    by_cases hk : k = id
    · subst hk
      have hne : ¬ (k = id2) := fun hc => h hc.symm
      simp [findEntry, updateEntry, hne]
    · simp only [updateEntry, if_neg hk]
      by_cases hk2 : k = id2
      · simp [findEntry, hk2]
      · simp only [findEntry, if_neg hk2]
        exact ih

theorem Store.modify_ok_inv (s s2 : Store) (id : Nat)
    (f : Transcript → Except StoreError Transcript)
    (h : Store.modify s id f = Except.ok s2) :
    ∃ t t2, Store.find s id = some t ∧ f t = Except.ok t2 ∧
      s2 = { s with entries := updateEntry s.entries id t2 } := by
  unfold Store.modify at h
  cases hf : Store.find s id with
  | none => simp [hf] at h
  | some t =>
    simp only [hf] at h
    cases hft : f t with
    | error e => simp [hft] at h
    | ok t2 =>
      simp only [hft] at h
      refine ⟨t, t2, rfl, hft, ?_⟩
      injection h with h2
      exact h2.symm

theorem Store.find_update_self (s : Store) (id : Nat) (t t2 : Transcript)
    (h : Store.find s id = some t) :
    Store.find { s with entries := updateEntry s.entries id t2 } id = some t2 :=
  findEntry_updateEntry_self s.entries id t t2 h

theorem Store.find_update_ne (s : Store) (id id2 : Nat) (t2 : Transcript)
    (h : id2 ≠ id) :
    Store.find { s with entries := updateEntry s.entries id t2 } id2 = Store.find s id2 :=
  findEntry_updateEntry_ne s.entries id id2 t2 h

theorem Store.modify_notFound (s : Store) (id : Nat)
    (f : Transcript → Except StoreError Transcript)
    (h : Store.find s id = none) :
    Store.modify s id f = Except.error StoreError.notFound := by
  unfold Store.modify
  simp [h]

theorem transition_to_running_notFound (s : Store) (id : Nat)
    (h : Store.find s id = none) :
    Store.transition_to_running s id = Except.error StoreError.notFound :=
  Store.modify_notFound s id _ h

theorem append_turn_notFound (s : Store) (id : Nat) (turn : Turn)
    (h : Store.find s id = none) :
    Store.append_turn s id turn = Except.error StoreError.notFound :=
  Store.modify_notFound s id _ h

theorem finalize_completed_notFound (s : Store) (id : Nat) (summary : Summary)
    (h : Store.find s id = none) :
    Store.finalize_completed s id summary = Except.error StoreError.notFound :=
  Store.modify_notFound s id _ h

theorem finalize_failed_notFound (s : Store) (id : Nat) (failure : Failure)
    (h : Store.find s id = none) :
    Store.finalize_failed s id failure = Except.error StoreError.notFound :=
  Store.modify_notFound s id _ h

theorem Store.modify_terminal (s : Store) (id : Nat) (t : Transcript)
    (g : Transcript → Except StoreError Transcript)
    (hf : Store.find s id = some t) (ht : t.isTerminal = true)
    (hg : ∀ u, u.isTerminal = true → g u = Except.error StoreError.invalidTransition) :
    Store.modify s id g = Except.error StoreError.invalidTransition := by
  unfold Store.modify
  simp [hf, hg t ht]

theorem transition_to_running_terminal (s : Store) (id : Nat) (t : Transcript)
    (hf : Store.find s id = some t) (ht : t.isTerminal = true) :
    Store.transition_to_running s id = Except.error StoreError.invalidTransition :=
  Store.modify_terminal s id t _ hf ht (fun u hu => by simp [hu])

theorem append_turn_terminal (s : Store) (id : Nat) (t : Transcript) (turn : Turn)
    (hf : Store.find s id = some t) (ht : t.isTerminal = true) :
    Store.append_turn s id turn = Except.error StoreError.invalidTransition :=
  Store.modify_terminal s id t _ hf ht (fun u hu => by simp [hu])

theorem finalize_completed_terminal (s : Store) (id : Nat) (t : Transcript)
    (summary : Summary) (hf : Store.find s id = some t) (ht : t.isTerminal = true) :
    Store.finalize_completed s id summary = Except.error StoreError.invalidTransition :=
  Store.modify_terminal s id t _ hf ht (fun u hu => by simp [hu])

theorem finalize_failed_terminal (s : Store) (id : Nat) (t : Transcript)
    (failure : Failure) (hf : Store.find s id = some t) (ht : t.isTerminal = true) :
    Store.finalize_failed s id failure = Except.error StoreError.invalidTransition :=
  Store.modify_terminal s id t _ hf ht (fun u hu => by simp [hu])

theorem statusRank_le_two (st : Status) : statusRank st ≤ 2 := by
  cases st <;> simp [statusRank]

theorem statusRank_le_one_of_not_terminal (t : Transcript)
    (h : t.isTerminal = false) : statusRank t.status ≤ 1 := by
  unfold Transcript.isTerminal at h
  cases hs : t.status <;> rw [hs] at h <;> simp [statusRank] at h ⊢

theorem transition_to_running_ok_inv (s s2 : Store) (id : Nat)
    (h : Store.transition_to_running s id = Except.ok s2) :
    ∃ t, Store.find s id = some t ∧ t.isTerminal = false ∧
      s2 = { s with entries := updateEntry s.entries id { t with status := Status.running } } := by
  obtain ⟨t, t2, hf, hft, hs2⟩ := Store.modify_ok_inv s s2 id _ h
  by_cases ht : t.isTerminal
  · simp [ht] at hft
  · rw [if_neg (by simp [ht])] at hft
    injection hft with h2
    exact ⟨t, hf, by simp [ht], by rw [hs2, h2]⟩

theorem append_turn_ok_inv (s s2 : Store) (id : Nat) (turn : Turn)
    (h : Store.append_turn s id turn = Except.ok s2) :
    ∃ t, Store.find s id = some t ∧ t.isTerminal = false ∧
      t.turns.length < t.turn_budget ∧
      s2 = { s with entries := updateEntry s.entries id { t with turns := t.turns ++ [turn] } } := by
  obtain ⟨t, t2, hf, hft, hs2⟩ := Store.modify_ok_inv s s2 id _ h
  by_cases ht : t.isTerminal
  · simp [ht] at hft
  · rw [if_neg (by simp [ht])] at hft
    by_cases hb : t.turn_budget ≤ t.turns.length
    · simp [hb] at hft
    · rw [if_neg hb] at hft
      injection hft with h2
      exact ⟨t, hf, by simp [ht], by omega, by rw [hs2, h2]⟩

theorem finalize_completed_ok_inv (s s2 : Store) (id : Nat) (summary : Summary)
    (h : Store.finalize_completed s id summary = Except.ok s2) :
    ∃ t, Store.find s id = some t ∧ t.isTerminal = false ∧
      s2 = { s with entries := updateEntry s.entries id
                      { t with status := Status.completed, summary := some summary } } := by
  obtain ⟨t, t2, hf, hft, hs2⟩ := Store.modify_ok_inv s s2 id _ h
  by_cases ht : t.isTerminal
  · simp [ht] at hft
  · rw [if_neg (by simp [ht])] at hft
    injection hft with h2
    exact ⟨t, hf, by simp [ht], by rw [hs2, h2]⟩

theorem finalize_failed_ok_inv (s s2 : Store) (id : Nat) (failure : Failure)
    (h : Store.finalize_failed s id failure = Except.ok s2) :
    ∃ t, Store.find s id = some t ∧ t.isTerminal = false ∧
      s2 = { s with entries := updateEntry s.entries id
                      { t with status := Status.failed, failure := some failure } } := by
  obtain ⟨t, t2, hf, hft, hs2⟩ := Store.modify_ok_inv s s2 id _ h
  by_cases ht : t.isTerminal
  · simp [ht] at hft
  · rw [if_neg (by simp [ht])] at hft
    injection hft with h2
    exact ⟨t, hf, by simp [ht], by rw [hs2, h2]⟩

theorem numberTurns_length (l : List (TurnKind × String)) :
    ∀ start, (numberTurns start l).length = l.length := by
  induction l with
  | nil => intro start; rfl
  | cons p rest ih =>
    intro start
    obtain ⟨k, c⟩ := p
    simp [numberTurns, ih]

theorem numberTurns_get_sequence (l : List (TurnKind × String)) :
    ∀ (start i : Nat) (h : i < (numberTurns start l).length),
      ((numberTurns start l).get ⟨i, h⟩).sequence = start + i := by
  induction l with
  | nil => intro start i h; simp [numberTurns] at h
  | cons p rest ih =>
    intro start i h
    obtain ⟨k, c⟩ := p
    cases i with
    | zero => rfl
    | succ j =>
      have hj : j < (numberTurns (start + 1) rest).length := by
        simp only [numberTurns, List.length_cons, numberTurns_length] at h
        rw [numberTurns_length]
        omega
      have := ih (start + 1) j hj
      simp only [numberTurns, List.get_cons_succ]
      rw [this]
      omega

theorem appendTurns_cons (l : List Turn) :
    ∀ (m : Nat) (es : List (Nat × Transcript)) (nid : Nat) (t : Transcript),
      t.status = Status.running →
      t.turns.length + l.length ≤ t.turn_budget →
      appendTurns { nextId := m, entries := (nid, t) :: es } nid l =
        Except.ok { nextId := m, entries := (nid, { t with turns := t.turns ++ l }) :: es } := by
  induction l with
  | nil =>
    intro m es nid t hst hlen
    simp [appendTurns]
  | cons turn rest ih =>
    intro m es nid t hst hlen
    have hterm : t.isTerminal = false := by simp [Transcript.isTerminal, hst]
    have hguard : ¬ (t.turn_budget ≤ t.turns.length) := by
      simp only [List.length_cons] at hlen
      omega
    have hstep : Store.append_turn { nextId := m, entries := (nid, t) :: es } nid turn =
        Except.ok { nextId := m, entries := (nid, { t with turns := t.turns ++ [turn] }) :: es } := by
      unfold Store.append_turn Store.modify
      simp [Store.find, findEntry, hterm, hguard, updateEntry]
    have hre : appendTurns { nextId := m, entries := (nid, t) :: es } nid (turn :: rest) =
        appendTurns { nextId := m, entries := (nid, { t with turns := t.turns ++ [turn] }) :: es } nid rest := by
      simp only [appendTurns, hstep]
    rw [hre]
    have hlen2 : ({ t with turns := t.turns ++ [turn] } : Transcript).turns.length + rest.length ≤
        ({ t with turns := t.turns ++ [turn] } : Transcript).turn_budget := by
      simp only [List.length_cons] at hlen
      simp only [List.length_append, List.length_cons, List.length_nil]
      omega
    rw [ih m es nid { t with turns := t.turns ++ [turn] } (by simp [hst]) hlen2]
    simp

theorem Adapter.run_fst_shape (n : Nat) (agent : AgentBehavior) :
    ∃ l0, (Adapter.run n agent).1 = numberTurns 0 l0 ∧ l0.length ≤ n := by
  unfold Adapter.run
  by_cases h : n < agent.turns.length
  · rw [if_pos h]
    refine ⟨agent.turns.take n, rfl, ?_⟩
    simp [List.length_take]
  · rw [if_neg h]
    exact ⟨agent.turns, rfl, by omega⟩

theorem Adapter.run_fst_length_le (n : Nat) (agent : AgentBehavior) :
    ((Adapter.run n agent).1).length ≤ n := by
  obtain ⟨l0, hshape, hle⟩ := Adapter.run_fst_shape n agent
  rw [hshape, numberTurns_length]
  exact hle

theorem submit_run_ok (cfg : Config) (s : Store) (prompt : String) (b : Int)
    (agent : AgentBehavior) (turns : List Turn) (summary : Summary)
    (hv : validate cfg prompt b = Except.ok ())
    (hA : Adapter.run b.toNat agent = (turns, Except.ok summary)) :
    submit cfg s prompt b agent =
      ({ nextId := s.nextId + 1,
         entries := (s.nextId,
             { id := s.nextId, prompt := prompt, turn_budget := b.toNat,
               status := Status.completed, turns := turns,
               summary := some summary, failure := none }) :: s.entries },
       Except.ok (s.nextId,
         { id := s.nextId, prompt := prompt, turn_budget := b.toNat,
           status := Status.completed, turns := turns,
           summary := some summary, failure := none })) := by
  have hlen : turns.length ≤ b.toNat := by
    have hh := Adapter.run_fst_length_le b.toNat agent
    rw [hA] at hh
    exact hh
  have h1 : Store.transition_to_running
      { nextId := s.nextId + 1,
        entries := (s.nextId,
            { id := s.nextId, prompt := prompt, turn_budget := b.toNat,
              status := Status.pending, turns := [], summary := none,
              failure := none }) :: s.entries } s.nextId =
      Except.ok
        { nextId := s.nextId + 1,
          entries := (s.nextId,
            { id := s.nextId, prompt := prompt, turn_budget := b.toNat,
              status := Status.running, turns := [], summary := none,
              failure := none }) :: s.entries } := by
    unfold Store.transition_to_running Store.modify
    simp [Store.find, findEntry, Transcript.isTerminal, updateEntry]
  have h2 : appendTurns
      { nextId := s.nextId + 1,
        entries := (s.nextId,
            { id := s.nextId, prompt := prompt, turn_budget := b.toNat,
              status := Status.running, turns := [], summary := none,
              failure := none }) :: s.entries } s.nextId turns =
      Except.ok
        { nextId := s.nextId + 1,
          entries := (s.nextId,
            { id := s.nextId, prompt := prompt, turn_budget := b.toNat,
              status := Status.running, turns := turns, summary := none,
              failure := none }) :: s.entries } := by
    have hbase := appendTurns_cons turns (s.nextId + 1) s.entries s.nextId
      { id := s.nextId, prompt := prompt, turn_budget := b.toNat,
        status := Status.running, turns := [], summary := none, failure := none }
      rfl (by simpa using hlen)
    simpa using hbase
  have h3 : Store.finalize_completed
      { nextId := s.nextId + 1,
        entries := (s.nextId,
            { id := s.nextId, prompt := prompt, turn_budget := b.toNat,
              status := Status.running, turns := turns, summary := none,
              failure := none }) :: s.entries } s.nextId summary =
      Except.ok
        { nextId := s.nextId + 1,
          entries := (s.nextId,
            { id := s.nextId, prompt := prompt, turn_budget := b.toNat,
              status := Status.completed, turns := turns,
              summary := some summary, failure := none }) :: s.entries } := by
    unfold Store.finalize_completed Store.modify
    simp [Store.find, findEntry, Transcript.isTerminal, updateEntry]
  have h4 : Store.find
      { nextId := s.nextId + 1,
        entries := (s.nextId,
            { id := s.nextId, prompt := prompt, turn_budget := b.toNat,
              status := Status.completed, turns := turns,
              summary := some summary, failure := none }) :: s.entries } s.nextId =
      some { id := s.nextId, prompt := prompt, turn_budget := b.toNat,
             status := Status.completed, turns := turns,
             summary := some summary, failure := none } := by
    simp [Store.find, findEntry]
  simp only [submit, hv, Store.create, h1, hA, h2, h3, h4]

theorem submit_run_error (cfg : Config) (s : Store) (prompt : String) (b : Int)
    (agent : AgentBehavior) (turns : List Turn) (e : AdapterError)
    (hv : validate cfg prompt b = Except.ok ())
    (hA : Adapter.run b.toNat agent = (turns, Except.error e)) :
    submit cfg s prompt b agent =
      ({ nextId := s.nextId + 1,
         entries := (s.nextId,
             { id := s.nextId, prompt := prompt, turn_budget := b.toNat,
               status := Status.failed, turns := turns, summary := none,
               failure := some { kind := mapAdapterError e,
                                 message := adapterMessage e } }) :: s.entries },
       Except.error (mapAdapterError e)) := by
  have hlen : turns.length ≤ b.toNat := by
    have hh := Adapter.run_fst_length_le b.toNat agent
    rw [hA] at hh
    exact hh
  have h1 : Store.transition_to_running
      { nextId := s.nextId + 1,
        entries := (s.nextId,
            { id := s.nextId, prompt := prompt, turn_budget := b.toNat,
              status := Status.pending, turns := [], summary := none,
              failure := none }) :: s.entries } s.nextId =
      Except.ok
        { nextId := s.nextId + 1,
          entries := (s.nextId,
            { id := s.nextId, prompt := prompt, turn_budget := b.toNat,
              status := Status.running, turns := [], summary := none,
              failure := none }) :: s.entries } := by
    unfold Store.transition_to_running Store.modify
    simp [Store.find, findEntry, Transcript.isTerminal, updateEntry]
  have h2 : appendTurns
      { nextId := s.nextId + 1,
        entries := (s.nextId,
            { id := s.nextId, prompt := prompt, turn_budget := b.toNat,
              status := Status.running, turns := [], summary := none,
              failure := none }) :: s.entries } s.nextId turns =
      Except.ok
        { nextId := s.nextId + 1,
          entries := (s.nextId,
            { id := s.nextId, prompt := prompt, turn_budget := b.toNat,
              status := Status.running, turns := turns, summary := none,
              failure := none }) :: s.entries } := by
    have hbase := appendTurns_cons turns (s.nextId + 1) s.entries s.nextId
      { id := s.nextId, prompt := prompt, turn_budget := b.toNat,
        status := Status.running, turns := [], summary := none, failure := none }
      rfl (by simpa using hlen)
    simpa using hbase
  have h3 : Store.finalize_failed
      { nextId := s.nextId + 1,
        entries := (s.nextId,
            { id := s.nextId, prompt := prompt, turn_budget := b.toNat,
              status := Status.running, turns := turns, summary := none,
              failure := none }) :: s.entries } s.nextId
      { kind := mapAdapterError e, message := adapterMessage e } =
      Except.ok
        { nextId := s.nextId + 1,
          entries := (s.nextId,
            { id := s.nextId, prompt := prompt, turn_budget := b.toNat,
              status := Status.failed, turns := turns, summary := none,
              failure := some { kind := mapAdapterError e,
                                message := adapterMessage e } }) :: s.entries } := by
    unfold Store.finalize_failed Store.modify
    simp [Store.find, findEntry, Transcript.isTerminal, updateEntry]
  simp only [submit, hv, Store.create, h1, hA, h2, h3]

theorem submit_validate_error (cfg : Config) (s : Store) (prompt : String) (b : Int)
    (agent : AgentBehavior) (e : ErrorKind)
    (hv : validate cfg prompt b = Except.error e) :
    submit cfg s prompt b agent = (s, Except.error e) := by
  simp only [submit, hv]

theorem validate_error_kind (cfg : Config) (prompt : String) (b : Int) (e : ErrorKind)
    (h : validate cfg prompt b = Except.error e) : e = ErrorKind.invalidInput := by
  unfold validate at h
  by_cases h1 : isBlank prompt
  · simp [h1] at h
    exact h.symm
  · by_cases h2 : b ≤ 0
    · simp [h1, h2] at h
      exact h.symm
    · by_cases h3 : cfg.maxTurnBudget < b
      · simp [h1, h2, h3] at h
        exact h.symm
      · simp [h1, h2, h3] at h

theorem Store.find_cons (m nid : Nat) (t : Transcript) (es : List (Nat × Transcript)) (id : Nat) :
    Store.find { nextId := m, entries := (nid, t) :: es } id =
      if nid = id then some t else findEntry es id := rfl

theorem storeWF_submit (cfg : Config) (s : Store) (prompt : String) (b : Int)
    (agent : AgentBehavior) (h : StoreWF s) : StoreWF (submit cfg s prompt b agent).1 := by
  cases hve : validate cfg prompt b with
  | error e =>
    rw [submit_validate_error cfg s prompt b agent e hve]
    exact h
  | ok u =>
    cases u
    rcases hA : Adapter.run b.toNat agent with ⟨turns, result⟩
    cases result with
    | ok summary =>
      rw [submit_run_ok cfg s prompt b agent turns summary hve hA]
      intro id t hf
      rw [Store.find_cons] at hf
      by_cases hid : s.nextId = id
      · rw [if_pos hid] at hf
        injection hf with hf2
        rw [← hf2]
        simp [entryWF]
      · rw [if_neg hid] at hf
        exact h id t hf
    | error e =>
      rw [submit_run_error cfg s prompt b agent turns e hve hA]
      intro id t hf
      rw [Store.find_cons] at hf
      by_cases hid : s.nextId = id
      · rw [if_pos hid] at hf
        injection hf with hf2
        rw [← hf2]
        simp [entryWF]
      · rw [if_neg hid] at hf
        exact h id t hf

theorem seqStrictMono_of_numberTurns (t : Transcript) (start : Nat)
    (l : List (TurnKind × String)) (h : t.turns = numberTurns start l) :
    seqStrictMono t := by
  intro i hi
  have h1 : i < (numberTurns start l).length := by
    rw [h] at hi
    omega
  have h2 : i + 1 < (numberTurns start l).length := by
    rw [h] at hi
    exact hi
  have e1 := numberTurns_get_sequence l start i h1
  have e2 := numberTurns_get_sequence l start (i + 1) h2
  have hw : (t.turns.get ⟨i, Nat.lt_of_succ_lt hi⟩).sequence = start + i := by
    rw [← e1]
    congr 1
    exact List.get_of_eq h _
  have hw2 : (t.turns.get ⟨i + 1, hi⟩).sequence = start + (i + 1) := by
    rw [← e2]
    congr 1
    exact List.get_of_eq h _
  rw [hw, hw2]
  omega

/-- C1: every Transcript returned by a successful submit has at most
turn_budget turns, and a successful append_turn keeps every entry of the
Store within its budget, so the bound holds at every point of the
Transcript lifecycle. -/
theorem submit_turns_length_le_budget :
    (∀ (cfg : Config) (s : Store) (prompt : String) (b : Int) (agent : AgentBehavior)
       (id : Nat) (t : Transcript),
       (submit cfg s prompt b agent).2 = Except.ok (id, t) →
       t.turns.length ≤ t.turn_budget)
  ∧ (∀ (s s1 : Store) (id : Nat) (turn : Turn) (id2 : Nat) (t t2 : Transcript),
       Store.append_turn s id turn = Except.ok s1 →
       Store.find s id2 = some t → Store.find s1 id2 = some t2 →
       t.turns.length ≤ t.turn_budget →
       t2.turns.length ≤ t2.turn_budget) := by
  constructor
  · intro cfg s prompt b agent id t hok
    cases hve : validate cfg prompt b with
    | error e =>
      rw [submit_validate_error cfg s prompt b agent e hve] at hok
      cases hok
    | ok u =>
      cases u
      rcases hA : Adapter.run b.toNat agent with ⟨turns, result⟩
      have hlen : turns.length ≤ b.toNat := by
        have hh := Adapter.run_fst_length_le b.toNat agent
        rw [hA] at hh
        exact hh
      cases result with
      | ok summary =>
        rw [submit_run_ok cfg s prompt b agent turns summary hve hA] at hok
        simp only [] at hok
        injection hok with hok2
        injection hok2 with hok3 hok4
        rw [← hok4]
        exact hlen
      | error e =>
        rw [submit_run_error cfg s prompt b agent turns e hve hA] at hok
        cases hok
  · intro s s1 id turn id2 t t2 hap hf hf2 hb
    obtain ⟨u, hfu, hterm, hlt, hs1⟩ := append_turn_ok_inv s s1 id turn hap
    by_cases hid : id2 = id
    · subst hid
      rw [hfu] at hf
      injection hf with hf3
      subst hf3
      rw [hs1, Store.find_update_self s id2 u _ hfu] at hf2
      injection hf2 with hf4
      rw [← hf4]
      simp only [List.length_append, List.length_cons, List.length_nil]
      omega
    · rw [hs1, Store.find_update_ne s id id2 _ hid, hf] at hf2
      injection hf2 with hf4
      rw [← hf4]
      exact hb

/-- C2: in every Store reachable by submissions, a pending Transcript has
an empty turns sequence and neither summary nor failure, and a terminal
Transcript has exactly one of summary and failure populated, never both
and never neither. -/
theorem reachable_store_wellFormed : ∀ s, SubmitReachable s → StoreWF s := by
  intro s h
  induction h with
  | empty =>
    intro id t hf
    simp [Store.empty, Store.find, findEntry] at hf
  | step cfg s2 prompt b agent hs ih =>
    exact storeWF_submit cfg s2 prompt b agent ih

/-- C3: each of the four Session Store mutations fails with NotFound on an
unknown id, fails with InvalidTransition against a Transcript already in a
terminal status instead of changing it, and every successful mutation
moves status only forward along pending, running, terminal. -/
theorem store_mutations_respect_status :
    (∀ (s : Store) (id : Nat) (turn : Turn) (summary : Summary) (failure : Failure),
       Store.find s id = none →
       Store.transition_to_running s id = Except.error StoreError.notFound ∧
       Store.append_turn s id turn = Except.error StoreError.notFound ∧
       Store.finalize_completed s id summary = Except.error StoreError.notFound ∧
       Store.finalize_failed s id failure = Except.error StoreError.notFound)
  ∧ (∀ (s : Store) (id : Nat) (t : Transcript) (turn : Turn) (summary : Summary)
       (failure : Failure),
       Store.find s id = some t → t.isTerminal = true →
       Store.transition_to_running s id = Except.error StoreError.invalidTransition ∧
       Store.append_turn s id turn = Except.error StoreError.invalidTransition ∧
       Store.finalize_completed s id summary = Except.error StoreError.invalidTransition ∧
       Store.finalize_failed s id failure = Except.error StoreError.invalidTransition)
  ∧ (∀ (s s1 : Store) (id id2 : Nat) (t t2 : Transcript),
       (Store.transition_to_running s id = Except.ok s1 ∨
        (∃ turn, Store.append_turn s id turn = Except.ok s1) ∨
        (∃ summary, Store.finalize_completed s id summary = Except.ok s1) ∨
        (∃ failure, Store.finalize_failed s id failure = Except.ok s1)) →
       Store.find s id2 = some t → Store.find s1 id2 = some t2 →
       statusRank t.status ≤ statusRank t2.status) := by
  refine ⟨?_, ?_, ?_⟩
  · intro s id turn summary failure h
    exact ⟨transition_to_running_notFound s id h, append_turn_notFound s id turn h,
      finalize_completed_notFound s id summary h, finalize_failed_notFound s id failure h⟩
  · intro s id t turn summary failure hf ht
    exact ⟨transition_to_running_terminal s id t hf ht, append_turn_terminal s id t turn hf ht,
      finalize_completed_terminal s id t summary hf ht, finalize_failed_terminal s id t failure hf ht⟩
  · intro s s1 id id2 t t2 hop hf hf2
    by_cases hid : id2 = id
    · subst hid
      rcases hop with h | ⟨turn, h⟩ | ⟨summary, h⟩ | ⟨failure, h⟩
      · obtain ⟨u, hfu, hterm, hs1⟩ := transition_to_running_ok_inv s s1 id2 h
        rw [hfu] at hf
        injection hf with hf3
        subst hf3
        rw [hs1, Store.find_update_self s id2 u _ hfu] at hf2
        injection hf2 with hf4
        rw [← hf4]
        exact statusRank_le_one_of_not_terminal u hterm
      · obtain ⟨u, hfu, hterm, hlt, hs1⟩ := append_turn_ok_inv s s1 id2 turn h
        rw [hfu] at hf
        injection hf with hf3
        subst hf3
        rw [hs1, Store.find_update_self s id2 u _ hfu] at hf2
        injection hf2 with hf4
        rw [← hf4]
      · obtain ⟨u, hfu, hterm, hs1⟩ := finalize_completed_ok_inv s s1 id2 summary h
        rw [hfu] at hf
        injection hf with hf3
        subst hf3
        rw [hs1, Store.find_update_self s id2 u _ hfu] at hf2
        injection hf2 with hf4
        rw [← hf4]
        exact statusRank_le_two u.status
      · obtain ⟨u, hfu, hterm, hs1⟩ := finalize_failed_ok_inv s s1 id2 failure h
        rw [hfu] at hf
        injection hf with hf3
        subst hf3
        rw [hs1, Store.find_update_self s id2 u _ hfu] at hf2
        injection hf2 with hf4
        rw [← hf4]
        exact statusRank_le_two u.status
    · have hfind : Store.find s1 id2 = Store.find s id2 := by
        rcases hop with h | ⟨turn, h⟩ | ⟨summary, h⟩ | ⟨failure, h⟩
        · obtain ⟨u, hfu, hterm, hs1⟩ := transition_to_running_ok_inv s s1 id h
          rw [hs1]
          exact Store.find_update_ne s id id2 _ hid
        · obtain ⟨u, hfu, hterm, hlt, hs1⟩ := append_turn_ok_inv s s1 id turn h
          rw [hs1]
          exact Store.find_update_ne s id id2 _ hid
        · obtain ⟨u, hfu, hterm, hs1⟩ := finalize_completed_ok_inv s s1 id summary h
          rw [hs1]
          exact Store.find_update_ne s id id2 _ hid
        · obtain ⟨u, hfu, hterm, hs1⟩ := finalize_failed_ok_inv s s1 id failure h
          rw [hs1]
          exact Store.find_update_ne s id id2 _ hid
      rw [hfind, hf] at hf2
      injection hf2 with hf4
      rw [← hf4]

/-- C4: validate fails with InvalidInput exactly when the prompt is empty
or whitespace-only, the turn budget is non-positive, or the turn budget
exceeds the configured maximum; and submit with a zero budget fails
immediately with InvalidInput, leaving the Store untouched so no session
id is issued. -/
theorem validate_invalidInput_iff :
    (∀ (cfg : Config) (prompt : String) (b : Int),
       validate cfg prompt b = Except.error ErrorKind.invalidInput ↔
       (isBlank prompt = true ∨ b ≤ 0 ∨ cfg.maxTurnBudget < b))
  ∧ (∀ (cfg : Config) (s : Store) (prompt : String) (agent : AgentBehavior),
       submit cfg s prompt 0 agent = (s, Except.error ErrorKind.invalidInput)) := by
  constructor
  · intro cfg prompt b
    unfold validate
    by_cases h1 : isBlank prompt
    · simp [h1]
    · by_cases h2 : b ≤ 0
      · simp [h1, h2]
      · by_cases h3 : cfg.maxTurnBudget < b
        · simp [h1, h2, h3]
        · simp [h1, h2, h3]
  · intro cfg s prompt agent
    have hv : validate cfg prompt 0 = Except.error ErrorKind.invalidInput := by
      unfold validate
      by_cases h1 : isBlank prompt <;> simp [h1]
    exact submit_validate_error cfg s prompt 0 agent ErrorKind.invalidInput hv

/-- C5: when submit fails with InvalidInput the Session Store is left
completely unchanged, and a get of the id that would have been issued
still returns NotFound. -/
theorem submit_invalidInput_store_unchanged
    (cfg : Config) (s : Store) (prompt : String) (b : Int) (agent : AgentBehavior)
    (h : (submit cfg s prompt b agent).2 = Except.error ErrorKind.invalidInput)
    (hfresh : Store.get s s.nextId = Except.error StoreError.notFound) :
    (submit cfg s prompt b agent).1 = s ∧
    Store.get (submit cfg s prompt b agent).1 s.nextId = Except.error StoreError.notFound := by
  cases hve : validate cfg prompt b with
  | error e =>
    rw [submit_validate_error cfg s prompt b agent e hve]
    exact ⟨rfl, hfresh⟩
  | ok u =>
    cases u
    rcases hA : Adapter.run b.toNat agent with ⟨turns, result⟩
    cases result with
    | ok summary =>
      rw [submit_run_ok cfg s prompt b agent turns summary hve hA] at h
      cases h
    | error e =>
      rw [submit_run_error cfg s prompt b agent turns e hve hA] at h
      simp only [] at h
      injection h with h2
      cases e <;> simp [mapAdapterError] at h2

/-- C6: when the Execution Adapter fails, submit surfaces exactly the
mapped error kind of that adapter error, and a later get of the session
sees a terminal failed Transcript carrying that kind and message, never
one stuck in running. -/
theorem submit_adapter_failure_mapped
    (cfg : Config) (s : Store) (prompt : String) (b : Int) (agent : AgentBehavior)
    (turns : List Turn) (e : AdapterError)
    (hv : validate cfg prompt b = Except.ok ())
    (hA : Adapter.run b.toNat agent = (turns, Except.error e)) :
    (submit cfg s prompt b agent).2 = Except.error (mapAdapterError e) ∧
    Store.get (submit cfg s prompt b agent).1 s.nextId =
      Except.ok { id := s.nextId, prompt := prompt, turn_budget := b.toNat,
                  status := Status.failed, turns := turns, summary := none,
                  failure := some { kind := mapAdapterError e,
                                    message := adapterMessage e } } := by
  rw [submit_run_error cfg s prompt b agent turns e hv hA]
  refine ⟨rfl, ?_⟩
  simp [Store.get, Store.find, findEntry]

/-- C7: the turns of a Transcript produced by submit carry strictly
increasing sequence numbers in list order, with no reordering, and submit
preserves this property for every Transcript in the Store. -/
theorem turns_sequence_strict_increasing :
    (∀ (cfg : Config) (s : Store) (prompt : String) (b : Int) (agent : AgentBehavior)
       (id : Nat) (t : Transcript),
       (submit cfg s prompt b agent).2 = Except.ok (id, t) → seqStrictMono t)
  ∧ (∀ (cfg : Config) (s : Store) (prompt : String) (b : Int) (agent : AgentBehavior),
       (∀ id t, Store.find s id = some t → seqStrictMono t) →
       ∀ id t, Store.find (submit cfg s prompt b agent).1 id = some t → seqStrictMono t) := by
  constructor
  · intro cfg s prompt b agent id t hok
    cases hve : validate cfg prompt b with
    | error e =>
      rw [submit_validate_error cfg s prompt b agent e hve] at hok
      cases hok
    | ok u =>
      cases u
      rcases hA : Adapter.run b.toNat agent with ⟨turns, result⟩
      obtain ⟨l0, hshape, hle⟩ := Adapter.run_fst_shape b.toNat agent
      rw [hA] at hshape
      cases result with
      | ok summary =>
        rw [submit_run_ok cfg s prompt b agent turns summary hve hA] at hok
        simp only [] at hok
        injection hok with hok2
        injection hok2 with hok3 hok4
        rw [← hok4]
        exact seqStrictMono_of_numberTurns _ 0 l0 hshape
      | error e =>
        rw [submit_run_error cfg s prompt b agent turns e hve hA] at hok
        cases hok
  · intro cfg s prompt b agent hall id t hf
    cases hve : validate cfg prompt b with
    | error e =>
      rw [submit_validate_error cfg s prompt b agent e hve] at hf
      exact hall id t hf
    | ok u =>
      cases u
      rcases hA : Adapter.run b.toNat agent with ⟨turns, result⟩
      obtain ⟨l0, hshape, hle⟩ := Adapter.run_fst_shape b.toNat agent
      rw [hA] at hshape
      cases result with
      | ok summary =>
        rw [submit_run_ok cfg s prompt b agent turns summary hve hA] at hf
        rw [Store.find_cons] at hf
        by_cases hid : s.nextId = id
        · rw [if_pos hid] at hf
          injection hf with hf2
          rw [← hf2]
          exact seqStrictMono_of_numberTurns _ 0 l0 hshape
        · rw [if_neg hid] at hf
          exact hall id t hf
      | error e =>
        rw [submit_run_error cfg s prompt b agent turns e hve hA] at hf
        rw [Store.find_cons] at hf
        by_cases hid : s.nextId = id
        · rw [if_pos hid] at hf
          injection hf with hf2
          rw [← hf2]
          exact seqStrictMono_of_numberTurns _ 0 l0 hshape
        · rw [if_neg hid] at hf
          exact hall id t hf

/-- C8: when the agent would yield more turns than turn_budget, submit
terminates the run as a normal completed outcome, not an error, with
exactly turn_budget turns delivered. -/
theorem budget_exhaustion_completes
    (cfg : Config) (s : Store) (prompt : String) (b : Int) (agent : AgentBehavior)
    (hv : validate cfg prompt b = Except.ok ())
    (hgt : b.toNat < agent.turns.length) :
    (submit cfg s prompt b agent).2 =
      Except.ok (s.nextId,
        { id := s.nextId, prompt := prompt, turn_budget := b.toNat,
          status := Status.completed,
          turns := numberTurns 0 (agent.turns.take b.toNat),
          summary := some { text := "", turnsUsed := b.toNat, cost := 0 },
          failure := none }) ∧
    (numberTurns 0 (agent.turns.take b.toNat)).length = b.toNat := by
  have hA : Adapter.run b.toNat agent =
      (numberTurns 0 (agent.turns.take b.toNat),
       Except.ok { text := "", turnsUsed := b.toNat, cost := 0 }) := by
    unfold Adapter.run
    rw [if_pos hgt]
  rw [submit_run_ok cfg s prompt b agent _ _ hv hA]
  refine ⟨rfl, ?_⟩
  rw [numberTurns_length, List.length_take]
  omega

/-- C9: the todos list the useTodos hook returns is exactly the
order-preserving sublist of the underlying list matching the filter, and
activeTodosCount equals the number of not-completed todos in the full
unfiltered list regardless of the selected filter. -/
theorem useTodos_filter_and_count (todos : List Todo) (filter : FilterType) :
    filteredTodos todos filter = specVisibleTodos todos filter ∧
    List.Sublist (filteredTodos todos filter) todos ∧
    activeTodosCount todos = specActiveCount todos := by
  refine ⟨?_, ?_, ?_⟩
  · unfold filteredTodos specVisibleTodos
    apply List.filter_congr
    intro x hx
    cases filter <;> cases hc : x.completed <;>
      simp [todoMatchesFilter, specKeepsTodo, hc]
  · exact List.filter_sublist _
  · unfold activeTodosCount specActiveCount
    rw [List.countP_eq_length_filter]
    congr 1
    apply List.filter_congr
    intro x hx
    cases hc : x.completed <;> simp [hc]

/-- C10: validateTitle in TodoItem and in TodoForm returns true exactly
when the trimmed title length is positive and the untrimmed length is at
most 200, and it leaves a validation error message set exactly when it
returns false. -/
theorem validateTitle_true_iff (value : String) :
    ((TodoItem.validateTitle value).1 = true ↔
      (0 < (strTrim value).length ∧ value.length ≤ 200)) ∧
    ((TodoItem.validateTitle value).2 = none ↔ (TodoItem.validateTitle value).1 = true) ∧
    ((TodoForm.validateTitle value).1 = true ↔
      (0 < (strTrim value).length ∧ value.length ≤ 200)) ∧
    ((TodoForm.validateTitle value).2 = none ↔ (TodoForm.validateTitle value).1 = true) := by
  unfold TodoItem.validateTitle TodoForm.validateTitle
  by_cases h1 : (strTrim value).length = 0
  · simp [h1]
  · by_cases h2 : value.length > 200
    · simp [h1, h2]
    · simp [h1, h2]
      omega

theorem submit_turns_length_le_budget_witness :
    demoTranscript.turns.length ≤ demoTranscript.turn_budget ∧
    demoRunning1.turns.length ≤ demoRunning1.turn_budget :=
  ⟨submit_turns_length_le_budget.1 demoConfig Store.empty "hi" 1 demoAgent 0 demoTranscript
      (by decide),
   submit_turns_length_le_budget.2 demoStoreRunning demoStoreRunning1 0 demoTurn 0
      demoRunning demoRunning1 (by decide) (by decide) (by decide) (by decide)⟩

theorem reachable_store_wellFormed_witness :
    StoreWF (submit demoConfig Store.empty "hi" 1 demoAgent).1 :=
  reachable_store_wellFormed _
    (SubmitReachable.step demoConfig Store.empty "hi" 1 demoAgent SubmitReachable.empty)

theorem store_mutations_respect_status_witness :
    (Store.transition_to_running Store.empty 5 = Except.error StoreError.notFound ∧
     Store.append_turn Store.empty 5 demoTurn = Except.error StoreError.notFound ∧
     Store.finalize_completed Store.empty 5 demoSummary = Except.error StoreError.notFound ∧
     Store.finalize_failed Store.empty 5 demoFailure = Except.error StoreError.notFound) ∧
    (Store.transition_to_running demoStoreTerminal 0 = Except.error StoreError.invalidTransition ∧
     Store.append_turn demoStoreTerminal 0 demoTurn = Except.error StoreError.invalidTransition ∧
     Store.finalize_completed demoStoreTerminal 0 demoSummary =
       Except.error StoreError.invalidTransition ∧
     Store.finalize_failed demoStoreTerminal 0 demoFailure =
       Except.error StoreError.invalidTransition) ∧
    statusRank demoRunning.status ≤ statusRank demoRunning1.status :=
  ⟨store_mutations_respect_status.1 Store.empty 5 demoTurn demoSummary demoFailure rfl,
   store_mutations_respect_status.2.1 demoStoreTerminal 0 demoCompleted demoTurn demoSummary
     demoFailure (by decide) (by decide),
   store_mutations_respect_status.2.2 demoStoreRunning demoStoreRunning1 0 0 demoRunning
     demoRunning1 (Or.inr (Or.inl ⟨demoTurn, by decide⟩)) (by decide) (by decide)⟩

theorem validate_invalidInput_iff_witness :
    validate demoConfig "" 1 = Except.error ErrorKind.invalidInput ∧
    submit demoConfig Store.empty "hi" 0 demoAgent =
      (Store.empty, Except.error ErrorKind.invalidInput) :=
  ⟨(validate_invalidInput_iff.1 demoConfig "" 1).mpr (Or.inl (by decide)),
   validate_invalidInput_iff.2 demoConfig Store.empty "hi" demoAgent⟩

theorem submit_invalidInput_store_unchanged_witness :
    (submit demoConfig Store.empty "" 1 demoAgent).1 = Store.empty ∧
    Store.get (submit demoConfig Store.empty "" 1 demoAgent).1 Store.empty.nextId =
      Except.error StoreError.notFound :=
  submit_invalidInput_store_unchanged demoConfig Store.empty "" 1 demoAgent
    (by decide) (by decide)

theorem submit_adapter_failure_mapped_witness :
    (submit demoConfig Store.empty "hi" 2 demoAgentDown).2 =
      Except.error (mapAdapterError AdapterError.agentUnavailable) ∧
    Store.get (submit demoConfig Store.empty "hi" 2 demoAgentDown).1 Store.empty.nextId =
      Except.ok { id := Store.empty.nextId, prompt := "hi", turn_budget := (2 : Int).toNat,
                  status := Status.failed, turns := [], summary := none,
                  failure := some { kind := mapAdapterError AdapterError.agentUnavailable,
                                    message := adapterMessage AdapterError.agentUnavailable } } :=
  submit_adapter_failure_mapped demoConfig Store.empty "hi" 2 demoAgentDown []
    AdapterError.agentUnavailable (by decide) (by decide)

theorem turns_sequence_strict_increasing_witness :
    seqStrictMono demoTranscript ∧ seqStrictMono demoLongTranscript :=
  ⟨turns_sequence_strict_increasing.1 demoConfig Store.empty "hi" 1 demoAgent 0 demoTranscript
      (by decide),
   turns_sequence_strict_increasing.2 demoConfig Store.empty "hi" 2 demoAgentLong
      (by intro id t h; simp [Store.empty, Store.find, findEntry] at h) 0 demoLongTranscript
      (by decide)⟩

theorem budget_exhaustion_completes_witness :
    (submit demoConfig Store.empty "hi" 2 demoAgentLong).2 =
      Except.ok (Store.empty.nextId,
        { id := Store.empty.nextId, prompt := "hi", turn_budget := (2 : Int).toNat,
          status := Status.completed,
          turns := numberTurns 0 (demoAgentLong.turns.take (2 : Int).toNat),
          summary := some { text := "", turnsUsed := (2 : Int).toNat, cost := 0 },
          failure := none }) ∧
    (numberTurns 0 (demoAgentLong.turns.take (2 : Int).toNat)).length = (2 : Int).toNat :=
  budget_exhaustion_completes demoConfig Store.empty "hi" 2 demoAgentLong (by decide) (by decide)

set_option maxRecDepth 4096 in
theorem validateTitle_true_iff_witness :
    (TodoItem.validateTitle "buy milk").1 = true ∧
    (TodoItem.validateTitle "buy milk").2 = none ∧
    (TodoForm.validateTitle "buy milk").1 = true ∧
    (TodoForm.validateTitle overlongTitle).1 = false :=
  ⟨(validateTitle_true_iff "buy milk").1.mpr ⟨by decide, by decide⟩,
   (validateTitle_true_iff "buy milk").2.1.mpr
     ((validateTitle_true_iff "buy milk").1.mpr ⟨by decide, by decide⟩),
   (validateTitle_true_iff "buy milk").2.2.1.mpr ⟨by decide, by decide⟩,
   by
     have h := (validateTitle_true_iff overlongTitle).2.2.1
     cases hb : (TodoForm.validateTitle overlongTitle).1 with
     | false => rfl
     | true =>
       have h2 := (h.mp hb).2
       have h3 : overlongTitle.length = 201 := by decide
       omega⟩
